import Mathlib

/-!
Shallow embedding of `src/app.py`: a row-by-row comparator of two spreadsheet
exports ("SAP" and "Open Orders") on four normalized fields.  Python strings
are modelled as `List Char`; a raw spreadsheet cell is modelled by the pair of
observations the code makes of it: its `str(...)` rendering and its
`pd.isna(...)` flag.
-/

set_option autoImplicit false

namespace App

/-- Python string, modelled as a list of characters. -/
abbrev PyStr := List Char

/-- Raw spreadsheet cell: the code only observes `str(x)` and `pd.isna(x)`,
so a cell is modelled by exactly those two observations.  A float cell such
as `7.0` has `toStr = "7.0"`; a NaN cell has `isna = true` (and
`toStr = "nan"`, Python's rendering of NaN). -/
structure Cell where
  toStr : PyStr
  isna : Bool
deriving DecidableEq, Repr

/-- Convenience: the cell holding an ordinary (non-missing) string. -/
def mkCell (s : String) : Cell := ⟨s.data, false⟩

/-- Python whitespace as recognised by `str.strip()`. -/
def isWs (c : Char) : Bool :=
  c = ' ' || c = '\t' || c = '\n' || c = '\r' || c = '\x0b' || c = '\x0c'

/-- Python `str.upper()` on one character (ASCII case mapping). -/
def pyUpperChar (c : Char) : Char :=
  if 97 ≤ c.toNat ∧ c.toNat ≤ 122 then Char.ofNat (c.toNat - 32) else c

/-- Python `s.strip()`: drop whitespace from both ends. -/
def pyStrip (l : PyStr) : PyStr :=
  ((l.dropWhile isWs).reverse.dropWhile isWs).reverse

/-- Python `s.replace(" ", "")`: remove every space character. -/
def removeSpaces (l : PyStr) : PyStr := l.filter (fun c => c != ' ')

/-- Position of the first occurrence of the marker `>>`: `some p` returns the
text before the first occurrence (Python `s.split(">>", 1)[0]` when
`">>" in s`), `none` means the marker does not occur. -/
def splitAtMarker : PyStr → Option PyStr
  | [] => none
  | c :: rest =>
    if c = '>' ∧ rest.head? = some '>' then some []
    else (splitAtMarker rest).map (fun p => c :: p)

/-- Embeds `clean_model` (src/app.py lines 9-13): missing value becomes `""`;
otherwise trim, truncating first at the `>>` marker when present. -/
def clean_model (x : Cell) : PyStr :=
  if x.isna then [] else
    match splitAtMarker x.toStr with
    | some p => pyStrip p
    | none => pyStrip x.toStr

/-- Embeds `norm_po` (src/app.py lines 15-16):
`str(x).strip().upper().replace(" ", "")`. -/
def norm_po (x : Cell) : PyStr :=
  removeSpaces ((pyStrip x.toStr).map pyUpperChar)

/-- Embeds `norm_line` (src/app.py lines 18-20):
`re.sub(r"[^0-9]", "", str(x)).lstrip("0") or "0"`. -/
def norm_line (x : Cell) : PyStr :=
  let t := (x.toStr.filter Char.isDigit).dropWhile (fun c => c == '0')
  if t.isEmpty then ['0'] else t

/-- Embeds `norm_loc_sap` (src/app.py lines 22-24): strip; the literal code
`"2913"` maps to `"EDMONTON"`, anything else is upper-cased. -/
def norm_loc_sap (x : Cell) : PyStr :=
  let code := pyStrip x.toStr
  if code = ['2', '9', '1', '3'] then "EDMONTON".data else code.map pyUpperChar

/-- Embeds `norm_loc_oo` (src/app.py lines 26-27): `str(x).strip().upper()`. -/
def norm_loc_oo (x : Cell) : PyStr :=
  (pyStrip x.toStr).map pyUpperChar

/-- Canonical four-field row (the column set produced by both extractors). -/
structure CanonicalRow where
  po : PyStr
  po_item : PyStr
  model : PyStr
  location : PyStr
deriving DecidableEq, Repr

/-- The four compared fields, in the fixed comparison order of the code. -/
inductive Field where
  | po | po_item | model | location
deriving DecidableEq, Repr

/-- The fixed field comparison order of `compare_row_by_row`. -/
def fieldOrder : List Field := [.po, .po_item, .model, .location]

/-- Value of one field of a canonical row. -/
def fieldVal (r : CanonicalRow) : Field → PyStr
  | .po => r.po
  | .po_item => r.po_item
  | .model => r.model
  | .location => r.location

/-- The mismatch description the code appends for one differing field
(src/app.py lines 62-69), naming the field and both canonical values. -/
def fieldMsg (f : Field) (a b : PyStr) : PyStr :=
  match f with
  | .po => "PO #: SAP=".data ++ a ++ " vs OO=".data ++ b
  | .po_item => "PO Item: SAP=".data ++ a ++ " vs OO=".data ++ b
  | .model => "Model: SAP='".data ++ a ++ "' vs OO='".data ++ b ++ "'".data
  | .location => "Location: SAP='".data ++ a ++ "' vs OO='".data ++ b ++ "'".data

/-- The `issues` list built for one row pair (src/app.py lines 58-69): one
mismatch description per differing field, in the fixed order
po, po_item, model, location. -/
def mismatches (s o : CanonicalRow) : List PyStr :=
  (if s.po ≠ o.po then [fieldMsg .po s.po o.po] else []) ++
  (if s.po_item ≠ o.po_item then [fieldMsg .po_item s.po_item o.po_item] else []) ++
  (if s.model ≠ o.model then [fieldMsg .model s.model o.model] else []) ++
  (if s.location ≠ o.location then [fieldMsg .location s.location o.location] else [])

/-- Python `" | ".join(issues)` (src/app.py line 87). -/
def joinIssues : List PyStr → PyStr
  | [] => []
  | [a] => a
  | a :: rest => a ++ " | ".data ++ joinIssues rest

/-- One record of the combined row-by-row view (src/app.py lines 71-82).
The code stores the mark "✅"/"❌"; it is modelled by the Boolean
`equivalent` (`true` renders as "✅"). -/
structure CombinedRow where
  excelRow : Nat
  sapPo : PyStr
  sapItem : PyStr
  sapModel : PyStr
  sapLoc : PyStr
  ooPo : PyStr
  ooItem : PyStr
  ooModel : PyStr
  ooLoc : PyStr
  equivalent : Bool
deriving DecidableEq, Repr

/-- One record of the discrepancy-only view (src/app.py lines 84-88). -/
structure DiscRow where
  excelRow : Nat
  whatsDifferent : PyStr
deriving DecidableEq, Repr

/-- The combined-view record built for row index `i` (src/app.py lines 71-82). -/
def mkCombined (i : Nat) (s o : CanonicalRow) : CombinedRow :=
  { excelRow := i + 2
    sapPo := s.po, sapItem := s.po_item, sapModel := s.model, sapLoc := s.location
    ooPo := o.po, ooItem := o.po_item, ooModel := o.model, ooLoc := o.location
    equivalent := (mismatches s o).isEmpty }

/-- The discrepancy record built for row index `i` (src/app.py lines 84-88). -/
def mkDisc (i : Nat) (s o : CanonicalRow) : DiscRow :=
  { excelRow := i + 2, whatsDifferent := joinIssues (mismatches s o) }

/-- The loop of `compare_row_by_row` (src/app.py lines 57-90), started at row
index `i`: returns the equivalent-row count, the discrepancy records and the
combined records, in original row order. -/
def compareLoop : Nat → List CanonicalRow → List CanonicalRow →
    Nat × List DiscRow × List CombinedRow
  | _, [], _ => (0, [], [])
  | _, _ :: _, [] => (0, [], [])
  | i, s :: ss, o :: os =>
    let issues := mismatches s o
    let rest := compareLoop (i + 1) ss os
    if issues.isEmpty then
      (rest.1 + 1, rest.2.1, mkCombined i s o :: rest.2.2)
    else
      (rest.1, mkDisc i s o :: rest.2.1, mkCombined i s o :: rest.2.2)

/-- The tuple returned by `compare_row_by_row` (src/app.py line 94). -/
structure ComparisonResult where
  rows_checked : Nat
  equivalent_rows : Nat
  discrepancy_df : List DiscRow
  combined_df : List CombinedRow
  sap_len : Nat
  oo_len : Nat
deriving DecidableEq, Repr

/-- Embeds `compare_row_by_row` (src/app.py lines 47-94): truncate both tables
to the shorter length `n` and compare the first `n` rows pairwise. -/
def compare_row_by_row (sap_four oo_four : List CanonicalRow) : ComparisonResult :=
  let n := min sap_four.length oo_four.length
  let r := compareLoop 0 (sap_four.take n) (oo_four.take n)
  { rows_checked := n
    equivalent_rows := r.1
    discrepancy_df := r.2.1
    combined_df := r.2.2
    sap_len := sap_four.length
    oo_len := oo_four.length }

/-- The length-mismatch notice of the page (src/app.py lines 140-142): shown
exactly when the two source tables differ in row count. -/
def lengthMismatchNotice (r : ComparisonResult) : Bool :=
  r.sap_len != r.oo_len

/-- Column keys of the discrepancy view (src/app.py lines 86-87).  Note the
second key uses the right single quotation mark U+2019, not an ASCII
apostrophe. -/
def discKeyRow : PyStr := "Excel Row".data

/-- Second column key of the discrepancy view (src/app.py line 87). -/
def discKeyWhat : PyStr := "What’s Different".data

/-- Header line of the downloadable CSV (src/app.py line 153):
`disc_df.to_csv(index=False)` joins the column keys with a comma. -/
def discCsvHeaderRow : PyStr := discKeyRow ++ ",".data ++ discKeyWhat

/-- A parsed spreadsheet (pandas DataFrame after the header row is consumed):
a rectangular grid with `ncols` columns. -/
structure RawTable where
  ncols : Nat
  rows : List (List Cell)
  wf : rows.all (fun r => r.length = ncols) = true
deriving Repr

/-- Pandas failure raised by out-of-bounds positional column selection.
`df.iloc[:, [...]]` with an index past the last column raises
`IndexError("positional indexers are out-of-bounds")` — a single constant
error carrying neither the offending index nor any source information. -/
inductive PandasError where
  | indexError
deriving DecidableEq, Repr

/-- Cell of a row at column `j` (total helper; on a well-formed table it is
only evaluated at `j < ncols`, where the default never fires). -/
def cellAt (r : List Cell) (j : Nat) : Cell := (r.get? j).getD ⟨[], true⟩

/-- Embeds `extract_sap_four` (src/app.py lines 29-36): select columns
2, 3, 6, 7 (po, location, po_item, model) and normalize them.  Pandas `iloc`
bounds-checks the requested indices against the table width, so the whole
extraction fails with `IndexError` unless column index 7 exists. -/
def extract_sap_four (df : RawTable) : Except PandasError (List CanonicalRow) :=
  if 7 < df.ncols then
    .ok (df.rows.map (fun r =>
      { po := norm_po (cellAt r 2)
        location := norm_loc_sap (cellAt r 3)
        po_item := norm_line (cellAt r 6)
        model := clean_model (cellAt r 7) }))
  else
    .error .indexError

/-- Embeds `extract_oo_four` (src/app.py lines 38-45): select columns
13, 14, 16, 9 (po, po_item, model, location) and normalize them; fails with
`IndexError` unless column index 16 exists. -/
def extract_oo_four (df : RawTable) : Except PandasError (List CanonicalRow) :=
  if 16 < df.ncols then
    .ok (df.rows.map (fun r =>
      { po := norm_po (cellAt r 13)
        po_item := norm_line (cellAt r 14)
        model := clean_model (cellAt r 16)
        location := norm_loc_oo (cellAt r 9) }))
  else
    .error .indexError

/-- The surfaced page message on extraction failure (src/app.py line 124):
`st.error(f"Column extraction failed. Error: {e}")` followed by `st.stop()`.
The interpolated pandas message is the constant string of `IndexError`. -/
def extractionFailMsg (e : PandasError) : PyStr :=
  "Column extraction failed. Error: ".data ++
    (match e with
     | .indexError => "positional indexers are out-of-bounds".data)

/-- Embeds the module-level run (src/app.py lines 120-127): extract SAP, then
OO; any extraction failure aborts the run (`st.stop()`) with the surfaced
error message and no comparison output; otherwise the comparison runs. -/
def runComparison (sap_df oo_df : RawTable) : Except PyStr ComparisonResult :=
  match extract_sap_four sap_df with
  | .error e => .error (extractionFailMsg e)
  | .ok sap_four =>
    match extract_oo_four oo_df with
    | .error e => .error (extractionFailMsg e)
    | .ok oo_four => .ok (compare_row_by_row sap_four oo_four)

/-! ### Character-level lemmas -/

theorem char_eq_iff_toNat {a b : Char} : a = b ↔ a.toNat = b.toNat := by
  constructor
  · intro h; rw [h]
  · intro h
    apply Char.ext
    apply UInt32.eq_of_toBitVec_eq
    exact BitVec.eq_of_toNat_eq h

theorem char_toNat_ofNat {n : Nat} (h : n < 55296) : (Char.ofNat n).toNat = n := by
  have hv : n.isValidChar := Or.inl h
  simp only [Char.ofNat, hv, dif_pos]
  simp [Char.ofNatAux, Char.toNat, UInt32.toNat]

theorem toNat_pyUpper (c : Char) :
    (pyUpperChar c).toNat = if 97 ≤ c.toNat ∧ c.toNat ≤ 122 then c.toNat - 32 else c.toNat := by
  unfold pyUpperChar
  by_cases h : 97 ≤ c.toNat ∧ c.toNat ≤ 122
  · rw [if_pos h, if_pos h]
    apply char_toNat_ofNat
    omega
  · rw [if_neg h, if_neg h]

theorem pyUpper_idem (c : Char) : pyUpperChar (pyUpperChar c) = pyUpperChar c := by
  rw [char_eq_iff_toNat, toNat_pyUpper, toNat_pyUpper]
  split_ifs <;> omega

theorem isWs_eq_toNat (c : Char) :
    isWs c = decide (c.toNat = 32 ∨ c.toNat = 9 ∨ c.toNat = 10 ∨ c.toNat = 13 ∨
      c.toNat = 11 ∨ c.toNat = 12) := by
  rw [Bool.eq_iff_iff]
  simp only [isWs, Bool.or_eq_true, decide_eq_true_eq, char_eq_iff_toNat]
  rw [show (' ' : Char).toNat = 32 from rfl, show ('\t' : Char).toNat = 9 from rfl,
    show ('\n' : Char).toNat = 10 from rfl, show ('\r' : Char).toNat = 13 from rfl,
    show ('\x0b' : Char).toNat = 11 from rfl, show ('\x0c' : Char).toNat = 12 from rfl]
  tauto

theorem isWs_pyUpper (c : Char) : isWs (pyUpperChar c) = isWs c := by
  rw [Bool.eq_iff_iff]
  simp only [isWs_eq_toNat, toNat_pyUpper, decide_eq_true_eq]
  split_ifs <;> omega

theorem bne_space_pyUpper (c : Char) : (pyUpperChar c != ' ') = (c != ' ') := by
  rw [Bool.eq_iff_iff]
  simp only [bne_iff_ne, ne_eq, char_eq_iff_toNat, toNat_pyUpper]
  rw [show (' ' : Char).toNat = 32 from rfl]
  split_ifs <;> omega

theorem pyUpper_eq_low {a t : Char} (ht : t.toNat < 65) : pyUpperChar a = t ↔ a = t := by
  rw [char_eq_iff_toNat, char_eq_iff_toNat, toNat_pyUpper]
  split_ifs <;> omega

/-! ### Generic list lemmas -/

theorem head?_dropWhile_false {α : Type} (p : α → Bool) (l : List α) (c : α)
    (h : (l.dropWhile p).head? = some c) : p c = false := by
  induction l with
  | nil => simp [List.dropWhile] at h
  | cons a t ih =>
    by_cases hp : p a
    · rw [List.dropWhile_cons, if_pos hp] at h
      exact ih h
    · rw [List.dropWhile_cons, if_neg hp] at h
      simp only [List.head?_cons, Option.some.injEq] at h
      subst h
      simpa using hp

theorem dropWhile_eq_self_of_head? {α : Type} (p : α → Bool) (l : List α)
    (h : ∀ c, l.head? = some c → p c = false) : l.dropWhile p = l := by
  cases l with
  | nil => rfl
  | cons a t =>
    have ha := h a rfl
    rw [List.dropWhile_cons, if_neg (by simp [ha])]

theorem dropWhile_decomp {α : Type} (p : α → Bool) (l : List α) :
    ∃ t, l = t ++ l.dropWhile p := by
  induction l with
  | nil => exact ⟨[], rfl⟩
  | cons a t ih =>
    by_cases hp : p a
    · obtain ⟨u, hu⟩ := ih
      refine ⟨a :: u, ?_⟩
      rw [List.dropWhile_cons, if_pos hp, List.cons_append, ← hu]
    · refine ⟨[], ?_⟩
      rw [List.dropWhile_cons, if_neg hp, List.nil_append]

theorem getLast?_dropWhile {α : Type} (p : α → Bool) (l : List α)
    (h : l.dropWhile p ≠ []) : (l.dropWhile p).getLast? = l.getLast? := by
  obtain ⟨t, ht⟩ := dropWhile_decomp p l
  conv_rhs => rw [ht]
  exact (List.getLast?_append_of_ne_nil t h).symm

theorem filter_dropWhile_comm {α : Type} (p q : α → Bool)
    (hpq : ∀ c, p c = false → q c = true) (l : List α) :
    (l.dropWhile q).filter p = (l.filter p).dropWhile q := by
  induction l with
  | nil => rfl
  | cons a t ih =>
    by_cases hq : q a
    · by_cases hp : p a
      · rw [List.dropWhile_cons, if_pos hq, List.filter_cons, if_pos hp,
          List.dropWhile_cons, if_pos hq, ih]
      · rw [List.dropWhile_cons, if_pos hq, List.filter_cons, if_neg (by simp [hp]), ih]
    · have hp : p a = true := by
        cases hpa : p a with
        | true => rfl
        | false => exact absurd (hpq a hpa) (by simp [hq])
      rw [List.dropWhile_cons, if_neg hq, List.filter_cons, if_pos (by simp [hp]),
        List.dropWhile_cons, if_neg hq]

/-! ### pyStrip lemmas -/

theorem pyStrip_head?_false (l : PyStr) (c : Char) (h : (pyStrip l).head? = some c) :
    isWs c = false := by
  unfold pyStrip at h
  rw [List.head?_reverse] at h
  by_cases hk : (l.dropWhile isWs).reverse.dropWhile isWs = []
  · rw [hk] at h; simp at h
  · rw [getLast?_dropWhile isWs _ hk, List.getLast?_reverse] at h
    exact head?_dropWhile_false isWs l c h

theorem pyStrip_getLast?_false (l : PyStr) (c : Char) (h : (pyStrip l).getLast? = some c) :
    isWs c = false := by
  unfold pyStrip at h
  rw [List.getLast?_reverse] at h
  exact head?_dropWhile_false isWs _ c h

theorem pyStrip_eq_self (l : PyStr)
    (h1 : ∀ c, l.head? = some c → isWs c = false)
    (h2 : ∀ c, l.getLast? = some c → isWs c = false) : pyStrip l = l := by
  unfold pyStrip
  rw [dropWhile_eq_self_of_head? isWs l h1]
  rw [dropWhile_eq_self_of_head? isWs l.reverse
    (fun c hc => h2 c (by rwa [List.head?_reverse] at hc))]
  exact List.reverse_reverse l

theorem pyStrip_idem (l : PyStr) : pyStrip (pyStrip l) = pyStrip l :=
  pyStrip_eq_self (pyStrip l) (pyStrip_head?_false l) (pyStrip_getLast?_false l)

theorem pyStrip_decomp (l : PyStr) : ∃ a b, l = a ++ pyStrip l ++ b := by
  obtain ⟨a, ha⟩ := dropWhile_decomp isWs l
  obtain ⟨c, hc⟩ := dropWhile_decomp isWs (l.dropWhile isWs).reverse
  refine ⟨a, c.reverse, ?_⟩
  unfold pyStrip
  calc l = a ++ l.dropWhile isWs := ha
    _ = a ++ (l.dropWhile isWs).reverse.reverse := by rw [List.reverse_reverse]
    _ = a ++ (c ++ (l.dropWhile isWs).reverse.dropWhile isWs).reverse := by rw [← hc]
    _ = a ++ (((l.dropWhile isWs).reverse.dropWhile isWs).reverse ++ c.reverse) := by
        rw [List.reverse_append]
    _ = a ++ ((l.dropWhile isWs).reverse.dropWhile isWs).reverse ++ c.reverse := by
        rw [List.append_assoc]

/-! ### Commutation lemmas between the string operations -/

theorem removeSpaces_pyStrip (l : PyStr) : removeSpaces (pyStrip l) = pyStrip (removeSpaces l) := by
  have hpq : ∀ c : Char, (c != ' ') = false → isWs c = true := by
    intro c h
    have : c = ' ' := by simpa using h
    subst this
    decide
  unfold pyStrip removeSpaces
  rw [List.filter_reverse, filter_dropWhile_comm _ _ hpq, List.filter_reverse,
    filter_dropWhile_comm _ _ hpq]

theorem map_pyUpper_pyStrip (l : PyStr) :
    (pyStrip l).map pyUpperChar = pyStrip (l.map pyUpperChar) := by
  have hcomp : (isWs ∘ pyUpperChar) = isWs := funext isWs_pyUpper
  have key : ∀ m : PyStr, (m.dropWhile isWs).map pyUpperChar =
      (m.map pyUpperChar).dropWhile isWs := by
    intro m
    rw [List.dropWhile_map, hcomp]
  unfold pyStrip
  rw [List.map_reverse, key, List.map_reverse, key]

theorem removeSpaces_map_pyUpper (l : PyStr) :
    removeSpaces (l.map pyUpperChar) = (removeSpaces l).map pyUpperChar := by
  have hcomp : ((fun c : Char => c != ' ') ∘ pyUpperChar) = (fun c : Char => c != ' ') :=
    funext bne_space_pyUpper
  unfold removeSpaces
  rw [List.map_filter, hcomp]

theorem removeSpaces_idem (l : PyStr) : removeSpaces (removeSpaces l) = removeSpaces l := by
  unfold removeSpaces
  rw [List.filter_filter]
  simp

theorem map_pyUpper_idem (l : PyStr) :
    (l.map pyUpperChar).map pyUpperChar = l.map pyUpperChar := by
  rw [List.map_map]
  exact List.map_congr_left (fun c _ => pyUpper_idem c)

theorem map_pyUpper_eq_low {l t : PyStr} (ht : ∀ c ∈ t, c.toNat < 65)
    (h : l.map pyUpperChar = t) : l = t := by
  induction l generalizing t with
  | nil => simpa using h
  | cons a l ih =>
    cases t with
    | nil => simp at h
    | cons b t' =>
      simp only [List.map_cons, List.cons.injEq] at h
      obtain ⟨h1, h2⟩ := h
      have hb : b.toNat < 65 := ht b (by simp)
      have ha : a = b := (pyUpper_eq_low hb).mp h1
      have ht' : ∀ c ∈ t', c.toNat < 65 := fun c hc => ht c (by simp [hc])
      rw [ha, ih ht' h2]

/-! ### splitAtMarker lemmas -/

theorem splitAtMarker_some {l p : PyStr} (h : splitAtMarker l = some p) :
    ∃ v, l = p ++ '>' :: '>' :: v := by
  induction l generalizing p with
  | nil => simp [splitAtMarker] at h
  | cons c rest ih =>
    rw [splitAtMarker] at h
    by_cases hc : c = '>' ∧ rest.head? = some '>'
    · rw [if_pos hc] at h
      obtain ⟨hc1, hc2⟩ := hc
      cases rest with
      | nil => simp at hc2
      | cons r0 rest' =>
        simp only [List.head?_cons, Option.some.injEq] at hc2
        cases h
        exact ⟨rest', by rw [hc1, hc2]; rfl⟩
    · rw [if_neg hc] at h
      obtain ⟨p', hp', rfl⟩ := Option.map_eq_some'.mp h
      obtain ⟨v, hv⟩ := ih hp'
      exact ⟨v, by rw [hv]; rfl⟩

theorem splitAtMarker_marker_ne_none (u v : PyStr) :
    splitAtMarker (u ++ '>' :: '>' :: v) ≠ none := by
  induction u with
  | nil =>
    rw [List.nil_append, splitAtMarker, if_pos (by simp)]
    simp
  | cons c u' ih =>
    rw [List.cons_append, splitAtMarker]
    by_cases hc : c = '>' ∧ (u' ++ '>' :: '>' :: v).head? = some '>'
    · rw [if_pos hc]; simp
    · rw [if_neg hc]
      simpa using ih

theorem splitAtMarker_append {u v : PyStr} (h : splitAtMarker (u ++ ['>']) = none) :
    splitAtMarker (u ++ '>' :: '>' :: v) = some u := by
  induction u with
  | nil =>
    rw [List.nil_append, splitAtMarker, if_pos (by simp)]
  | cons c u' ih =>
    rw [List.cons_append, splitAtMarker] at h ⊢
    by_cases hc : c = '>' ∧ (u' ++ ['>']).head? = some '>'
    · rw [if_pos hc] at h
      exact absurd h (by simp)
    · rw [if_neg hc] at h
      have h' : splitAtMarker (u' ++ ['>']) = none := Option.map_eq_none'.mp h
      have hcond : ¬(c = '>' ∧ (u' ++ '>' :: '>' :: v).head? = some '>') := by
        rintro ⟨rfl, hh⟩
        apply hc
        refine ⟨rfl, ?_⟩
        cases u' with
        | nil => simp
        | cons a u'' => simpa using hh
      rw [if_neg hcond, ih h']
      rfl

theorem splitAtMarker_pyStrip_none {s : PyStr} (h : splitAtMarker s = none) :
    splitAtMarker (pyStrip s) = none := by
  cases hm : splitAtMarker (pyStrip s) with
  | none => rfl
  | some p =>
    obtain ⟨v, hv⟩ := splitAtMarker_some hm
    obtain ⟨a, b, hab⟩ := pyStrip_decomp s
    rw [hv] at hab
    have : s = (a ++ p) ++ '>' :: '>' :: (v ++ b) := by
      rw [hab]; simp
    exact absurd (this ▸ h) (splitAtMarker_marker_ne_none (a ++ p) (v ++ b))

/-! ### Normalizer-level lemmas -/

theorem mk_toStr (s : PyStr) (b : Bool) : (Cell.mk s b).toStr = s := rfl

theorem mk_isna (s : PyStr) (b : Bool) : (Cell.mk s b).isna = b := rfl

theorem norm_loc_sap_def (x : Cell) :
    norm_loc_sap x = if pyStrip x.toStr = ['2', '9', '1', '3'] then "EDMONTON".data
      else (pyStrip x.toStr).map pyUpperChar := rfl

theorem norm_line_def (x : Cell) :
    norm_line x = if ((x.toStr.filter Char.isDigit).dropWhile (fun c => c == '0')).isEmpty
      then ['0'] else (x.toStr.filter Char.isDigit).dropWhile (fun c => c == '0') := rfl

theorem norm_po_eq_strip_last (x : Cell) :
    norm_po x = pyStrip (removeSpaces (x.toStr.map pyUpperChar)) := by
  unfold norm_po
  rw [map_pyUpper_pyStrip, removeSpaces_pyStrip]

theorem norm_po_idem (x : Cell) : norm_po ⟨norm_po x, false⟩ = norm_po x := by
  have hstrip : pyStrip (norm_po x) = norm_po x := by
    rw [norm_po_eq_strip_last, pyStrip_idem]
  have hupper : (norm_po x).map pyUpperChar = norm_po x := by
    unfold norm_po
    rw [removeSpaces_map_pyUpper, map_pyUpper_idem]
  have hspaces : removeSpaces (norm_po x) = norm_po x := by
    unfold norm_po
    rw [removeSpaces_idem]
  show removeSpaces ((pyStrip (norm_po x)).map pyUpperChar) = norm_po x
  rw [hstrip, hupper, hspaces]

theorem norm_loc_oo_idem (x : Cell) : norm_loc_oo ⟨norm_loc_oo x, false⟩ = norm_loc_oo x := by
  have hstrip : pyStrip (norm_loc_oo x) = norm_loc_oo x := by
    unfold norm_loc_oo
    rw [map_pyUpper_pyStrip, pyStrip_idem]
  have hupper : (norm_loc_oo x).map pyUpperChar = norm_loc_oo x := by
    unfold norm_loc_oo
    rw [map_pyUpper_idem]
  show (pyStrip (norm_loc_oo x)).map pyUpperChar = norm_loc_oo x
  rw [hstrip, hupper]

theorem norm_loc_sap_idem (x : Cell) : norm_loc_sap ⟨norm_loc_sap x, false⟩ = norm_loc_sap x := by
  by_cases h : pyStrip x.toStr = ['2', '9', '1', '3']
  · have hx : norm_loc_sap x = "EDMONTON".data := by
      rw [norm_loc_sap_def, if_pos h]
    rw [hx]
    decide
  · have hx : norm_loc_sap x = (pyStrip x.toStr).map pyUpperChar := by
      rw [norm_loc_sap_def, if_neg h]
    have hstrip : pyStrip (norm_loc_sap x) = norm_loc_sap x := by
      rw [hx, map_pyUpper_pyStrip, pyStrip_idem]
    have hne : pyStrip (norm_loc_sap x) ≠ ['2', '9', '1', '3'] := by
      rw [hstrip, hx]
      intro hcontra
      have : pyStrip x.toStr = ['2', '9', '1', '3'] :=
        map_pyUpper_eq_low (by decide) hcontra
      exact h this
    rw [norm_loc_sap_def, mk_toStr, if_neg hne, hstrip, hx, map_pyUpper_idem]

theorem norm_line_filter (x : Cell) :
    norm_line x = norm_line ⟨x.toStr.filter Char.isDigit, false⟩ := by
  unfold norm_line
  rw [List.filter_filter]
  have : (fun a => Char.isDigit a && Char.isDigit a) = Char.isDigit := by
    funext a
    rw [Bool.and_self]
  rw [this]

theorem norm_line_all_digits (x : Cell) :
    ∀ c ∈ norm_line x, Char.isDigit c = true := by
  intro c hc
  unfold norm_line at hc
  by_cases hE : ((x.toStr.filter Char.isDigit).dropWhile (fun c => c == '0')).isEmpty
  · simp only [hE, if_pos] at hc
    simp only [List.mem_singleton] at hc
    subst hc
    decide
  · simp only [hE, if_neg, Bool.not_eq_true] at hc
    obtain ⟨u, hu⟩ := dropWhile_decomp (fun c : Char => c == '0') (x.toStr.filter Char.isDigit)
    have : c ∈ x.toStr.filter Char.isDigit := by
      rw [hu]
      exact List.mem_append_right u hc
    exact List.of_mem_filter this

theorem norm_line_idem (x : Cell) : norm_line ⟨norm_line x, false⟩ = norm_line x := by
  by_cases hE : ((x.toStr.filter Char.isDigit).dropWhile (fun c => c == '0')).isEmpty
  · have hx : norm_line x = ['0'] := by
      unfold norm_line
      rw [if_pos hE]
    rw [hx]
    decide
  · have hx : norm_line x = (x.toStr.filter Char.isDigit).dropWhile (fun c => c == '0') := by
      unfold norm_line
      rw [if_neg hE]
    have hfilter : (norm_line x).filter Char.isDigit = norm_line x :=
      List.filter_eq_self.mpr (norm_line_all_digits x)
    have hdrop : (norm_line x).dropWhile (fun c => c == '0') = norm_line x := by
      apply dropWhile_eq_self_of_head?
      intro c hc
      rw [hx] at hc
      exact head?_dropWhile_false _ _ c hc
    rw [norm_line_def ⟨norm_line x, false⟩, mk_toStr, hfilter, hdrop,
      if_neg (by rw [hx]; exact hE)]

theorem clean_model_no_marker {s : PyStr} (h : splitAtMarker s = none) :
    clean_model ⟨s, false⟩ = pyStrip s := by
  simp [clean_model, h]

theorem clean_model_idem (x : Cell) (h : splitAtMarker x.toStr = none) :
    clean_model ⟨clean_model x, false⟩ = clean_model x := by
  by_cases hna : x.isna
  · have hx : clean_model x = [] := by
      unfold clean_model
      rw [if_pos hna]
    rw [hx]
    decide
  · have hx : clean_model x = pyStrip x.toStr := by
      unfold clean_model
      rw [if_neg hna, h]
    rw [hx, clean_model_no_marker (splitAtMarker_pyStrip_none h), pyStrip_idem]

/-! ### Comparator lemmas -/

theorem mismatches_eq_filter (s o : CanonicalRow) :
    mismatches s o = (fieldOrder.filter (fun f => fieldVal s f != fieldVal o f)).map
      (fun f => fieldMsg f (fieldVal s f) (fieldVal o f)) := by
  by_cases h1 : s.po = o.po <;> by_cases h2 : s.po_item = o.po_item <;>
    by_cases h3 : s.model = o.model <;> by_cases h4 : s.location = o.location <;>
    simp [mismatches, fieldOrder, fieldVal, h1, h2, h3, h4]

theorem compareLoop_fst (i : Nat) (s o : List CanonicalRow) :
    (compareLoop i s o).1 = (s.zip o).countP (fun p => (mismatches p.1 p.2).isEmpty) := by
  induction s generalizing i o with
  | nil => simp [compareLoop]
  | cons a s ih =>
    cases o with
    | nil => simp [compareLoop]
    | cons b o =>
      by_cases h : (mismatches a b).isEmpty <;>
        simp [compareLoop, h, List.zip_cons_cons, List.countP_cons, ih]

theorem compareLoop_comb (i : Nat) (s o : List CanonicalRow) :
    (compareLoop i s o).2.2 = (List.enumFrom i (s.zip o)).map
      (fun q => mkCombined q.1 q.2.1 q.2.2) := by
  induction s generalizing i o with
  | nil => simp [compareLoop]
  | cons a s ih =>
    cases o with
    | nil => simp [compareLoop]
    | cons b o =>
      by_cases h : (mismatches a b).isEmpty <;>
        simp [compareLoop, h, List.zip_cons_cons, List.enumFrom, ih, List.zip]

theorem compareLoop_disc (i : Nat) (s o : List CanonicalRow) :
    (compareLoop i s o).2.1 = ((List.enumFrom i (s.zip o)).filter
      (fun q => !(mismatches q.2.1 q.2.2).isEmpty)).map
      (fun q => mkDisc q.1 q.2.1 q.2.2) := by
  induction s generalizing i o with
  | nil => simp [compareLoop]
  | cons a s ih =>
    cases o with
    | nil => simp [compareLoop]
    | cons b o =>
      by_cases h : (mismatches a b).isEmpty <;>
        simp [compareLoop, h, List.zip_cons_cons, List.enumFrom, List.filter_cons, ih,
          List.zip]

theorem zip_take_min {α β : Type} (s : List α) (o : List β) :
    (s.take (min s.length o.length)).zip (o.take (min s.length o.length)) = s.zip o := by
  induction s generalizing o with
  | nil => simp
  | cons a s ih =>
    cases o with
    | nil => simp
    | cons b o =>
      rw [List.length_cons, List.length_cons, Nat.succ_min_succ, List.take_succ_cons,
        List.take_succ_cons, List.zip_cons_cons, List.zip_cons_cons, ih]

theorem zip_get? {α β : Type} (s : List α) (o : List β) (i : Nat)
    (h1 : i < s.length) (h2 : i < o.length) :
    (s.zip o).get? i = some (s.get ⟨i, h1⟩, o.get ⟨i, h2⟩) := by
  induction s generalizing o i with
  | nil => simp at h1
  | cons a s ih =>
    cases o with
    | nil => simp at h2
    | cons b o =>
      cases i with
      | zero => simp [List.zip_cons_cons]
      | succ n =>
        rw [List.zip_cons_cons, List.get?_cons_succ]
        exact ih o n (by simpa using h1) (by simpa using h2)

theorem enumFrom_get? {α : Type} (n : Nat) (l : List α) (i : Nat) :
    (List.enumFrom n l).get? i = (l.get? i).map (fun a => (n + i, a)) := by
  induction l generalizing n i with
  | nil => simp [List.enumFrom]
  | cons a l ih =>
    cases i with
    | zero => simp [List.enumFrom]
    | succ m =>
      rw [List.enumFrom, List.get?_cons_succ, List.get?_cons_succ, ih]
      have hadd : n + 1 + m = n + (m + 1) := by omega
      simp only [hadd]

theorem countP_enumFrom {α : Type} (p : α → Bool) (n : Nat) (l : List α) :
    (List.enumFrom n l).countP (fun q => p q.2) = l.countP p := by
  induction l generalizing n with
  | nil => simp [List.enumFrom]
  | cons a l ih => simp [List.enumFrom, List.countP_cons, ih]

theorem countP_not_eq_sub {α : Type} (p : α → Bool) (l : List α) :
    l.countP (fun a => !p a) = l.length - l.countP p := by
  induction l with
  | nil => simp
  | cons a t ih =>
    have hle := List.countP_le_length (p := p) (l := t)
    by_cases h : p a <;> simp [List.countP_cons, h, ih] <;> omega

theorem rows_checked_eq (sap oo : List CanonicalRow) :
    (compare_row_by_row sap oo).rows_checked = min sap.length oo.length := rfl

theorem sap_len_eq (sap oo : List CanonicalRow) :
    (compare_row_by_row sap oo).sap_len = sap.length := rfl

theorem oo_len_eq (sap oo : List CanonicalRow) :
    (compare_row_by_row sap oo).oo_len = oo.length := rfl

theorem equivalent_rows_eq (sap oo : List CanonicalRow) :
    (compare_row_by_row sap oo).equivalent_rows =
      (sap.zip oo).countP (fun p => (mismatches p.1 p.2).isEmpty) := by
  show (compareLoop 0 (sap.take (min sap.length oo.length))
    (oo.take (min sap.length oo.length))).1 = _
  rw [compareLoop_fst, zip_take_min]

theorem combined_df_eq (sap oo : List CanonicalRow) :
    (compare_row_by_row sap oo).combined_df =
      (List.enumFrom 0 (sap.zip oo)).map (fun q => mkCombined q.1 q.2.1 q.2.2) := by
  show (compareLoop 0 (sap.take (min sap.length oo.length))
    (oo.take (min sap.length oo.length))).2.2 = _
  rw [compareLoop_comb, zip_take_min]

theorem discrepancy_df_eq (sap oo : List CanonicalRow) :
    (compare_row_by_row sap oo).discrepancy_df =
      ((List.enumFrom 0 (sap.zip oo)).filter
        (fun q => !(mismatches q.2.1 q.2.2).isEmpty)).map
        (fun q => mkDisc q.1 q.2.1 q.2.2) := by
  show (compareLoop 0 (sap.take (min sap.length oo.length))
    (oo.take (min sap.length oo.length))).2.1 = _
  rw [compareLoop_disc, zip_take_min]

/-! ### Claim theorems -/

/-- C2: the PO-item normalizer works on the cell's string form, keeps exactly
its digits (first conjunct), strips leading zeros (second and fourth
conjuncts), canonicalizes to "0" exactly when no nonzero digit remains (third
conjunct), and maps "007" to "7", "0" to "0", "" to "0" and "Line 007A" to
"7" (last conjunct). -/
theorem C2_norm_line_digits_and_zeros :
    (∀ x : Cell, norm_line x = norm_line ⟨x.toStr.filter Char.isDigit, false⟩) ∧
    (∀ (s : PyStr) (b b' : Bool), norm_line ⟨'0' :: s, b⟩ = norm_line ⟨s, b'⟩) ∧
    (∀ x : Cell, norm_line x = ['0'] ↔
      (x.toStr.filter Char.isDigit).all (fun c => c == '0') = true) ∧
    (∀ x : Cell, norm_line x = ['0'] ∨
      ((norm_line x).head? ≠ some '0' ∧ norm_line x ≠ [])) ∧
    (norm_line (mkCell "007") = "7".data ∧ norm_line (mkCell "0") = "0".data ∧
     norm_line (mkCell "") = "0".data ∧ norm_line (mkCell "Line 007A") = "7".data) := by
  refine ⟨norm_line_filter, ?_, ?_, ?_, by decide, by decide, by decide, by decide⟩
  · intro s b b'
    rw [norm_line_def, norm_line_def, mk_toStr, mk_toStr, List.filter_cons,
      if_pos (by decide : (Char.isDigit '0') = true), List.dropWhile_cons,
      if_pos (by decide : (('0' : Char) == '0') = true)]
  · intro x
    rw [norm_line_def]
    by_cases hE : ((x.toStr.filter Char.isDigit).dropWhile (fun c => c == '0')).isEmpty
    · rw [if_pos hE]
      refine iff_of_true rfl ?_
      rw [List.all_eq_true]
      exact fun c hc => (List.dropWhile_eq_nil_iff.mp (List.isEmpty_iff.mp hE)) c hc
    · rw [if_neg hE]
      refine iff_of_false ?_ ?_
      · intro hcontra
        have hhead : ((x.toStr.filter Char.isDigit).dropWhile
            (fun c => c == '0')).head? = some '0' := by rw [hcontra]; rfl
        have := head?_dropWhile_false _ _ _ hhead
        simp at this
      · intro hall
        apply hE
        rw [List.isEmpty_iff, List.dropWhile_eq_nil_iff]
        exact fun c hc => (List.all_eq_true.mp hall) c hc
  · intro x
    rw [norm_line_def]
    by_cases hE : ((x.toStr.filter Char.isDigit).dropWhile (fun c => c == '0')).isEmpty
    · left
      rw [if_pos hE]
    · right
      rw [if_neg hE]
      constructor
      · intro hc
        have := head?_dropWhile_false _ _ _ hc
        simp at this
      · intro hnil
        exact hE (by rw [hnil]; rfl)

/-- C10: `norm_line` does not special-case a decimal point: it is simply
dropped like every other non-digit, so every digit on either side of the
point is kept.  In particular the float-formatted item 7.0 (string form
"7.0") normalizes to "70", not "7", and therefore does not compare equal to
the integer-formatted item "7". -/
theorem C10_norm_line_float_formatted :
    (∀ (u v : PyStr) (b b' : Bool), norm_line ⟨u ++ '.' :: v, b⟩ = norm_line ⟨u ++ v, b'⟩) ∧
    norm_line (mkCell "7.0") = "70".data ∧
    norm_line (mkCell "7") = "7".data ∧
    norm_line (mkCell "7.0") ≠ norm_line (mkCell "7") := by
  refine ⟨?_, by decide, by decide, by decide⟩
  intro u v b b'
  rw [norm_line_def, norm_line_def, mk_toStr, mk_toStr, List.filter_append,
    List.filter_append, List.filter_cons, if_neg (by decide : ¬(Char.isDigit '.') = true)]

/-- C3: the model normalizer maps a missing value to the empty string; on a
string without the ">>" marker it just trims surrounding whitespace; when the
marker is present it keeps only the text before the first occurrence,
trimmed; examples "ABC123 >> extra"→"ABC123", missing→"", "  XYZ  "→"XYZ". -/
theorem C3_clean_model_marker_truncation :
    (∀ x : Cell, x.isna = true → clean_model x = []) ∧
    (∀ s : PyStr, splitAtMarker s = none → clean_model ⟨s, false⟩ = pyStrip s) ∧
    (∀ u v : PyStr, splitAtMarker (u ++ ['>']) = none →
       clean_model ⟨u ++ '>' :: '>' :: v, false⟩ = pyStrip u) ∧
    (clean_model (mkCell "ABC123 >> extra") = "ABC123".data ∧
     clean_model ⟨"nan".data, true⟩ = [] ∧
     clean_model (mkCell "  XYZ  ") = "XYZ".data) := by
  refine ⟨?_, fun s h => clean_model_no_marker h, ?_, by decide, by decide, by decide⟩
  · intro x h
    unfold clean_model
    rw [if_pos h]
  · intro u v h
    simp [clean_model, splitAtMarker_append h]

/-- C4: the SAP location normalizer trims whitespace, maps the literal code
"2913" to the fixed name "EDMONTON", and upper-cases every other trimmed
value; examples "2913"→"EDMONTON", " 2913 "→"EDMONTON", "yeg"→"YEG". -/
theorem C4_norm_loc_sap :
    (∀ x : Cell, pyStrip x.toStr = "2913".data → norm_loc_sap x = "EDMONTON".data) ∧
    (∀ x : Cell, pyStrip x.toStr ≠ "2913".data →
       norm_loc_sap x = (pyStrip x.toStr).map pyUpperChar) ∧
    (norm_loc_sap (mkCell "2913") = "EDMONTON".data ∧
     norm_loc_sap (mkCell " 2913 ") = "EDMONTON".data ∧
     norm_loc_sap (mkCell "yeg") = "YEG".data) := by
  refine ⟨?_, ?_, by decide, by decide, by decide⟩
  · intro x h
    rw [norm_loc_sap_def, if_pos (by rw [h])]
  · intro x h
    rw [norm_loc_sap_def, if_neg (by rw [show ("2913".data : PyStr) = ['2', '9', '1', '3'] from rfl] at h; exact h)]

/-- C5: the PO normalizer equals the spec's pipeline "trim surrounding
whitespace, remove all interior spaces, upper-case" (first conjunct; the
code applies upper-casing before space removal, but the two orders agree),
and consequently two cells whose string forms agree after upper-casing and
removing every space normalize to the same canonical PO (second conjunct). -/
theorem C5_norm_po_case_and_space_insensitive :
    (∀ x : Cell, norm_po x = (removeSpaces (pyStrip x.toStr)).map pyUpperChar) ∧
    (∀ x y : Cell,
       removeSpaces (x.toStr.map pyUpperChar) = removeSpaces (y.toStr.map pyUpperChar) →
       norm_po x = norm_po y) := by
  constructor
  · intro x
    unfold norm_po
    rw [removeSpaces_map_pyUpper]
  · intro x y h
    rw [norm_po_eq_strip_last, norm_po_eq_strip_last, h]

/-- C8: every normalizer is a total function on cells (each is a Lean
function defined on all of `Cell`, mirroring that the Python code never
raises), and each of the PO, PO-item and two location normalizers is
idempotent when its output string is fed back in as a non-missing cell
(`pd.isna` of a Python `str` is always false); the model normalizer is
idempotent on any cell whose string carries no ">>" marker, i.e. is already
truncated. -/
theorem C8_normalizers_total_idempotent :
    (∀ x : Cell, norm_po ⟨norm_po x, false⟩ = norm_po x) ∧
    (∀ x : Cell, norm_line ⟨norm_line x, false⟩ = norm_line x) ∧
    (∀ x : Cell, norm_loc_sap ⟨norm_loc_sap x, false⟩ = norm_loc_sap x) ∧
    (∀ x : Cell, norm_loc_oo ⟨norm_loc_oo x, false⟩ = norm_loc_oo x) ∧
    (∀ x : Cell, splitAtMarker x.toStr = none →
       clean_model ⟨clean_model x, false⟩ = clean_model x) :=
  ⟨norm_po_idem, norm_line_idem, norm_loc_sap_idem, norm_loc_oo_idem, clean_model_idem⟩

theorem countP_enumFrom_disc (n : Nat) (l : List (CanonicalRow × CanonicalRow)) :
    (List.enumFrom n l).countP (fun q => !(mismatches q.2.1 q.2.2).isEmpty) =
      l.countP (fun r => !(mismatches r.1 r.2).isEmpty) :=
  countP_enumFrom (fun r => !(mismatches r.1 r.2).isEmpty) n l

theorem countP_not_disc (l : List (CanonicalRow × CanonicalRow)) :
    l.countP (fun r => !(mismatches r.1 r.2).isEmpty) =
      l.length - l.countP (fun r => (mismatches r.1 r.2).isEmpty) :=
  countP_not_eq_sub _ l

/-- Sample canonical rows used by the concrete witnesses below. -/
def rowA : CanonicalRow := ⟨"A".data, "1".data, "M".data, "L".data⟩

/-- A row differing from `rowA` in the po field only. -/
def rowB : CanonicalRow := ⟨"B".data, "1".data, "M".data, "L".data⟩

/-- C1: for every pair of canonical tables and every row index below both
lengths, the comparator's combined view carries exactly the record built from
the two rows at that index (first conjunct); the mismatch list for the pair
contains, in the fixed field order po, po_item, model, location, exactly one
description per field whose canonical strings differ, each description naming
the field and both canonical values (second conjunct, via `fieldMsg`); and
the row is judged equivalent iff that list is empty (third conjunct). -/
theorem C1_rows_compared_fieldwise (sap oo : List CanonicalRow) (i : Nat)
    (h1 : i < sap.length) (h2 : i < oo.length) :
    (compare_row_by_row sap oo).combined_df.get? i =
      some (mkCombined i (sap.get ⟨i, h1⟩) (oo.get ⟨i, h2⟩)) ∧
    mismatches (sap.get ⟨i, h1⟩) (oo.get ⟨i, h2⟩) =
      (fieldOrder.filter (fun f =>
        fieldVal (sap.get ⟨i, h1⟩) f != fieldVal (oo.get ⟨i, h2⟩) f)).map
        (fun f => fieldMsg f (fieldVal (sap.get ⟨i, h1⟩) f) (fieldVal (oo.get ⟨i, h2⟩) f)) ∧
    ((mkCombined i (sap.get ⟨i, h1⟩) (oo.get ⟨i, h2⟩)).equivalent = true ↔
      mismatches (sap.get ⟨i, h1⟩) (oo.get ⟨i, h2⟩) = []) := by
  refine ⟨?_, mismatches_eq_filter _ _, ?_⟩
  · rw [combined_df_eq, List.get?_map, enumFrom_get?, zip_get? sap oo i h1 h2]
    simp
  · simp [mkCombined, List.isEmpty_iff]

/-- Witness for C1 at a concrete pair of one-row tables differing in po. -/
theorem C1_witness :
    (compare_row_by_row [rowA] [rowB]).combined_df.get? 0 =
      some (mkCombined 0 rowA rowB) ∧
    ((mkCombined 0 rowA rowB).equivalent = true ↔ mismatches rowA rowB = []) := by
  have h := C1_rows_compared_fieldwise [rowA] [rowB] 0 (by decide) (by decide)
  exact ⟨h.1, h.2.2⟩

/-- C6: rows_checked is the minimum of the two table lengths; the combined
view has exactly rows_checked records, so rows beyond the minimum are never
compared; every discrepancy record comes from a compared index below
rows_checked, so extra rows are never flagged; the number of discrepancy
records is rows_checked minus the equivalent-row count; and the
length-mismatch notice is shown exactly when the two lengths differ. -/
theorem C6_summary_and_truncation (sap oo : List CanonicalRow) :
    (compare_row_by_row sap oo).rows_checked = min sap.length oo.length ∧
    (compare_row_by_row sap oo).combined_df.length =
      (compare_row_by_row sap oo).rows_checked ∧
    (∀ d ∈ (compare_row_by_row sap oo).discrepancy_df,
       ∃ i, i < (compare_row_by_row sap oo).rows_checked ∧ d.excelRow = i + 2) ∧
    (compare_row_by_row sap oo).discrepancy_df.length =
      (compare_row_by_row sap oo).rows_checked -
        (compare_row_by_row sap oo).equivalent_rows ∧
    (lengthMismatchNotice (compare_row_by_row sap oo) = true ↔
      sap.length ≠ oo.length) := by
  refine ⟨rfl, ?_, ?_, ?_, ?_⟩
  · rw [combined_df_eq, List.length_map, List.enumFrom_length, List.length_zip,
      rows_checked_eq]
  · intro d hd
    rw [discrepancy_df_eq] at hd
    obtain ⟨q, hq, rfl⟩ := List.mem_map.mp hd
    obtain ⟨j, hj⟩ := List.mem_iff_get?.mp (List.mem_filter.mp hq).1
    rw [enumFrom_get?] at hj
    obtain ⟨p, hp, hqp⟩ := Option.map_eq_some'.mp hj
    obtain ⟨hlt, -⟩ := List.get?_eq_some.mp hp
    refine ⟨j, ?_, ?_⟩
    · rw [rows_checked_eq]
      rw [List.length_zip] at hlt
      exact hlt
    · rw [← hqp]
      simp [mkDisc]
  · rw [discrepancy_df_eq, List.length_map, ← List.countP_eq_length_filter,
      countP_enumFrom_disc, countP_not_disc, List.length_zip, rows_checked_eq,
      equivalent_rows_eq]
  · simp [lengthMismatchNotice, sap_len_eq, oo_len_eq, bne_iff_ne]

/-- Witness for C6 at concrete tables of lengths 1 and 2 with one
discrepancy. -/
theorem C6_witness :
    (∃ i, i < (compare_row_by_row [rowA] [rowB, rowA]).rows_checked ∧
       (mkDisc 0 rowA rowB).excelRow = i + 2) ∧
    lengthMismatchNotice (compare_row_by_row [rowA] [rowB, rowA]) = true := by
  refine ⟨(C6_summary_and_truncation [rowA] [rowB, rowA]).2.2.1
    (mkDisc 0 rowA rowB) ?_,
    ((C6_summary_and_truncation [rowA] [rowB, rowA]).2.2.2.2).mpr ?_⟩
  · decide
  · decide

/-- C9 fails as stated: the downloadable CSV's header is not the ASCII text
`Excel Row,What's Different` claimed (apostrophe U+0027, built here as
`Char.ofNat 39`), because the code's second column key (src/app.py line 87)
spells "What's" with the right single quotation mark U+2019. -/
theorem C9_counterexample :
    discCsvHeaderRow ≠ "Excel Row,What".data ++ [Char.ofNat 39] ++ "s Different".data := by
  decide

/-- C9 amended: every record of the discrepancy-only view is exactly the
record built from the compared pair at some index `i` below both table
lengths, hence carries the row label `i + 2`; and the CSV header is
`Excel Row,What's Different` written with the right single quotation mark
U+2019 (`Char.ofNat 8217`), not the ASCII apostrophe. -/
theorem C9_amended (sap oo : List CanonicalRow) :
    (∀ d ∈ (compare_row_by_row sap oo).discrepancy_df,
       ∃ (i : Nat) (hs : i < sap.length) (ho : i < oo.length),
         d = mkDisc i (sap.get ⟨i, hs⟩) (oo.get ⟨i, ho⟩)) ∧
    discCsvHeaderRow = "Excel Row,What".data ++ [Char.ofNat 8217] ++ "s Different".data := by
  constructor
  · intro d hd
    rw [discrepancy_df_eq] at hd
    obtain ⟨q, hq, rfl⟩ := List.mem_map.mp hd
    obtain ⟨j, hj⟩ := List.mem_iff_get?.mp (List.mem_filter.mp hq).1
    rw [enumFrom_get?] at hj
    obtain ⟨p, hp, hqp⟩ := Option.map_eq_some'.mp hj
    obtain ⟨hlt, -⟩ := List.get?_eq_some.mp hp
    rw [List.length_zip] at hlt
    have hs : j < sap.length := lt_of_lt_of_le hlt (min_le_left _ _)
    have ho : j < oo.length := lt_of_lt_of_le hlt (min_le_right _ _)
    refine ⟨j, hs, ho, ?_⟩
    rw [zip_get? sap oo j hs ho] at hp
    have hpp := Option.some.inj hp
    subst hpp
    rw [← hqp]
    simp [mkDisc]
  · decide

/-- Witness for C9 at a concrete pair of one-row tables differing in po. -/
theorem C9_witness :
    ∃ (i : Nat) (hs : i < ([rowA] : List CanonicalRow).length)
      (ho : i < ([rowB] : List CanonicalRow).length),
      mkDisc 0 rowA rowB = mkDisc i (List.get [rowA] ⟨i, hs⟩) (List.get [rowB] ⟨i, ho⟩) :=
  (C9_amended [rowA] [rowB]).1 (mkDisc 0 rowA rowB) (by decide)

/-- C7 fails in its identification part: a run whose SAP table is 3 columns
wide (missing required SAP indices 3, 6 and 7) and a run whose SAP table is
fine but whose Open-Orders table is 5 columns wide (missing required OO
indices 9, 13, 14 and 16) surface exactly the same error value — the constant
pandas message "positional indexers are out-of-bounds" wrapped in the page's
generic column-extraction text — so the surfaced error identifies neither
which source failed nor which column index is missing. -/
theorem C7_counterexample :
    runComparison ⟨3, [], rfl⟩ ⟨17, [], rfl⟩ = runComparison ⟨8, [], rfl⟩ ⟨5, [], rfl⟩ ∧
    runComparison ⟨3, [], rfl⟩ ⟨17, [], rfl⟩ =
      Except.error (extractionFailMsg PandasError.indexError) :=
  ⟨rfl, rfl⟩

/-- C7 amended: extraction fails (with pandas' index error) exactly when the
table is too narrow to hold the highest required column index — index 7 for
SAP, index 16 for Open Orders — and any such failure aborts the whole run
before comparison with only the surfaced error message, never a defaulted or
partial comparison output; the surfaced error does not itself name the
failing source or the missing index. -/
theorem C7_extraction_failure :
    (∀ df : RawTable, df.ncols ≤ 7 →
       extract_sap_four df = Except.error PandasError.indexError) ∧
    (∀ df : RawTable, 7 < df.ncols → ∃ rows, extract_sap_four df = Except.ok rows) ∧
    (∀ df : RawTable, df.ncols ≤ 16 →
       extract_oo_four df = Except.error PandasError.indexError) ∧
    (∀ df : RawTable, 16 < df.ncols → ∃ rows, extract_oo_four df = Except.ok rows) ∧
    (∀ sap_df oo_df : RawTable, sap_df.ncols ≤ 7 ∨ oo_df.ncols ≤ 16 →
       runComparison sap_df oo_df =
         Except.error (extractionFailMsg PandasError.indexError)) := by
  refine ⟨?_, ?_, ?_, ?_, ?_⟩
  · intro df h
    rw [extract_sap_four, if_neg (by omega)]
  · intro df h
    exact ⟨_, by rw [extract_sap_four, if_pos h]⟩
  · intro df h
    rw [extract_oo_four, if_neg (by omega)]
  · intro df h
    exact ⟨_, by rw [extract_oo_four, if_pos h]⟩
  · intro sap_df oo_df h
    rcases h with h | h
    · rw [runComparison, extract_sap_four, if_neg (by omega)]
    · by_cases hs : 7 < sap_df.ncols
      · rw [runComparison, extract_sap_four, if_pos hs, extract_oo_four,
          if_neg (by omega)]
      · rw [runComparison, extract_sap_four, if_neg hs]

/-- Witness for C7 at concrete tables: a 3-column SAP table fails SAP
extraction, and a 5-column OO table aborts the whole run. -/
theorem C7_witness :
    extract_sap_four ⟨3, [], rfl⟩ = Except.error PandasError.indexError ∧
    runComparison ⟨8, [], rfl⟩ ⟨5, [], rfl⟩ =
      Except.error (extractionFailMsg PandasError.indexError) :=
  ⟨C7_extraction_failure.1 ⟨3, [], rfl⟩ (by decide),
   C7_extraction_failure.2.2.2.2 ⟨8, [], rfl⟩ ⟨5, [], rfl⟩ (Or.inr (by decide))⟩

/-- Witness for C3 at concrete cells: a missing cell, an unmarked string and
a marked string. -/
theorem C3_witness :
    clean_model ⟨"nan".data, true⟩ = [] ∧
    clean_model ⟨" AB ".data, false⟩ = pyStrip " AB ".data ∧
    clean_model ⟨"ABC".data ++ '>' :: '>' :: "x".data, false⟩ = pyStrip "ABC".data :=
  ⟨C3_clean_model_marker_truncation.1 ⟨"nan".data, true⟩ rfl,
   C3_clean_model_marker_truncation.2.1 " AB ".data (by decide),
   C3_clean_model_marker_truncation.2.2.1 "ABC".data "x".data (by decide)⟩

/-- Witness for C4 at the code and at an ordinary location value. -/
theorem C4_witness :
    norm_loc_sap (mkCell " 2913 ") = "EDMONTON".data ∧
    norm_loc_sap (mkCell "yeg") = (pyStrip (mkCell "yeg").toStr).map pyUpperChar :=
  ⟨C4_norm_loc_sap.1 (mkCell " 2913 ") (by decide),
   C4_norm_loc_sap.2.1 (mkCell "yeg") (by decide)⟩

/-- Witness for C5: two PO cells differing only in case and spacing
normalize identically. -/
theorem C5_witness : norm_po (mkCell " p o 1") = norm_po (mkCell "PO1") :=
  C5_norm_po_case_and_space_insensitive.2 (mkCell " p o 1") (mkCell "PO1") (by decide)

/-- Witness for C8 at concrete cells, including an unmarked model value. -/
theorem C8_witness :
    norm_po ⟨norm_po (mkCell " a b"), false⟩ = norm_po (mkCell " a b") ∧
    clean_model ⟨clean_model (mkCell " AB "), false⟩ = clean_model (mkCell " AB ") :=
  ⟨C8_normalizers_total_idempotent.1 (mkCell " a b"),
   C8_normalizers_total_idempotent.2.2.2.2 (mkCell " AB ") (by decide)⟩

end App
